import Mathlib

/-!
Verification of the layered configuration loader (Go package `config` /
`mcfg`) and its template helper package `tmpl`.

The development shallowly embeds the parts of the source that the checked
properties are about:

* the name mangling between dotted configuration paths and environment
  variable names (`generateEnvBindings`, `envKeyDecoder`);
* the template helper functions (`envFunc`, `coalesceFunc`);
* the binding-table assembly and the store pipeline of `Load`;
* the reflective key collector (`collectKoanfKeys`);
* the configuration-file search step of `Load` (modelled from the spec,
  see the doc comments of `parseCandidate` and `loadFirstConfig`).

Go strings are modelled either as Lean `String` (where only equality,
concatenation and character-wise replacement matter) or as lists of rune
code points (`List Nat`) for the case-mangling functions, whose upper and
lower maps are embedded on the ASCII plane of `unicode.ToUpper` and
`unicode.ToLower` that configuration keys and environment names live in.
All string primitives used by the model operate on the underlying
character list so that every definition evaluates by kernel reduction.
-/

set_option autoImplicit false

namespace Mcfg

/-! ## Rune-level string model for the name mangler

A Go string is a sequence of runes; we model a rune as its code point.
Relevant code points: 45 = hyphen, 46 = dot, 95 = underscore,
65..90 = A..Z, 97..122 = a..z. -/

/-- ASCII plane of Go `unicode.ToUpper`: lowercase letters a..z map to
A..Z, everything else is unchanged. -/
def runeToUpper (r : Nat) : Nat :=
  if 97 ≤ r ∧ r ≤ 122 then r - 32 else r

/-- ASCII plane of Go `unicode.ToLower`: uppercase letters A..Z map to
a..z, everything else is unchanged. -/
def runeToLower (r : Nat) : Nat :=
  if 65 ≤ r ∧ r ≤ 90 then r + 32 else r

/-- Character map of `strings.NewReplacer(".", "_", "-", "_")` used by
`generateEnvBindings`: dot (46) and hyphen (45) become underscore (95). -/
def runeDotDashToUnderscore (r : Nat) : Nat :=
  if r = 46 ∨ r = 45 then 95 else r

/-- Character map of `strings.ReplaceAll(key, "_", ".")` used by
`envKeyDecoder`: underscore (95) becomes dot (46). -/
def runeUnderscoreToDot (r : Nat) : Nat :=
  if r = 95 then 46 else r

/-- Character map of `strings.ReplaceAll(p, "-", ".")` from the spec
formula: hyphen (45) becomes dot (46). -/
def runeDashToDot (r : Nat) : Nat :=
  if r = 45 then 46 else r

/-- Name mangling of `generateEnvBindings` for one koanf key: replace
dot and hyphen by underscore, uppercase, and prepend the prefix verbatim:
the Go source computes
`strings.ToUpper(strings.NewReplacer(".", "_", "-", "_").Replace(key))`
and binds it under the concatenation of the prefix and that name. -/
def pathToEnvName (pre p : List Nat) : List Nat :=
  pre ++ (p.map runeDotDashToUnderscore).map runeToUpper

/-- Embedding of `strings.TrimPrefix`: drop the prefix when present,
otherwise return the string unchanged. -/
def trimPre (pre s : List Nat) : List Nat :=
  if pre.isPrefixOf s then s.drop pre.length else s

/-- Embedding of `envKeyDecoder(prefix)` applied to a key: trim the
prefix, lowercase, then replace every underscore by a dot. -/
def envKeyDecoder (pre s : List Nat) : List Nat :=
  ((trimPre pre s).map runeToLower).map runeUnderscoreToDot

/-- Spec-side formula of claim C5: `lower(replace(p, "-", "."))`, that is
lowercase with every hyphen replaced by a dot. -/
def specRoundTrip (p : List Nat) : List Nat :=
  (p.map runeDashToDot).map runeToLower

/-! ## Template helper functions (package `tmpl`) -/

/-- Template value as seen by the `text/template` function call protocol:
`nil` (absent / undefined), a string, or some other non-string value
(modelled by an integer payload). -/
inductive TVal where
  | nil : TVal
  | str : String → TVal
  | int : Int → TVal
deriving DecidableEq, Repr

/-- Test used by `coalesceFunc` to skip a value: `nil`, or a string that
equals the empty string. -/
def TVal.isEmptyVal : TVal → Bool
  | .nil => true
  | .str s => s = ""
  | .int _ => false

/-- Embedding of `coalesceFunc`: scan the arguments left to right, skip
`nil` and empty strings, return the first remaining value; return `nil`
when every argument was skipped. The function returns a plain value and
has no error path. -/
def coalesceFunc : List TVal → TVal
  | [] => .nil
  | v :: vs => if v.isEmptyVal then coalesceFunc vs else v

/-- Process environment: `none` models an unset variable, `some s` a
variable set to `s` (possibly the empty string). -/
def GoEnv : Type := String → Option String

/-- Embedding of `os.Getenv`: the value of a set variable, and the empty
string for an unset one. -/
def getenv (e : GoEnv) (key : String) : String :=
  (e key).getD ""

/-- Embedding of `envFunc(key, defaultVal...)`: return the environment
value when `os.Getenv` yields a non-empty string; otherwise the first
variadic argument when one was given; otherwise the empty string. -/
def envFunc (e : GoEnv) (key : String) (defaultVal : List String) : String :=
  if getenv e key ≠ "" then getenv e key
  else
    match defaultVal with
    | [] => ""
    | d :: _ => d

/-- Environment in which the variable `V` is set to the empty string. -/
def envSetEmpty : GoEnv := fun k => if k = "V" then some "" else none

/-- Environment in which the variable `W` is set to `val`. -/
def envSetW : GoEnv := fun k => if k = "W" then some "val" else none

/-! ## String primitives over the character list

These mirror the corresponding Go byte and rune level operations; they are
written over `String.data` so that all model functions evaluate by plain
kernel reduction. -/

/-- Prefix test on strings, written over the character lists. -/
def strIsPre (p s : String) : Bool := p.data.isPrefixOf s.data

/-- Drop of the first `n` characters of a string. -/
def strDrop (s : String) (n : Nat) : String := ⟨s.data.drop n⟩

/-- Length of a string in characters. -/
def strLen (s : String) : Nat := s.data.length

/-- Test whether a string contains a dot character. -/
def strHasDot (s : String) : Bool := s.data.contains '.'

/-! ## Hierarchical key-value store (koanf interface model)

The external store is used through the narrow interface of spec section 6:
point write, point delete (at and under a path), read nested map at a
path, and flat dotted keys. A store is a flat association list from dotted
path to value; a value is a string or a list of strings (the latter only
serves to express sections that do not form a string-to-string mapping). -/

/-- Value stored at a configuration path. -/
inductive KVal where
  | str : String → KVal
  | strs : List String → KVal
deriving DecidableEq, Repr

/-- Test for a plain string value. -/
def KVal.isStr : KVal → Bool
  | .str _ => true
  | .strs _ => false

/-- Flat dotted-path store. -/
abbrev Store := List (String × KVal)

/-- Point write `k.Set(path, v)`: overwrite the value at an existing path,
otherwise append the new entry. -/
def storeSet (s : Store) (key : String) (v : KVal) : Store :=
  if s.any fun kv => kv.1 == key then
    s.map fun kv => if kv.1 == key then (key, v) else kv
  else s ++ [(key, v)]

/-- Point read of the value at a path. -/
def storeGet (s : Store) (key : String) : Option KVal :=
  (s.find? fun kv => kv.1 == key).map Prod.snd

/-- Load of a list of path-value pairs into the store, each pair
overwriting the path it touches (koanf load semantics: later loads
overwrite earlier loads at the same path). -/
def mergeInto (s : Store) (ps : List (String × KVal)) : Store :=
  ps.foldl (fun st kv => storeSet st kv.1 kv.2) s

/-- Model of the koanf operation `StringMap(path)` (read nested map at a
path, external store interface of spec section 6): the immediate children
of `path` when the path itself holds no scalar value and every child is a
plain string exactly one level below; the empty list when the path is
absent, holds a scalar or list value, or any child is nested deeper or
holds a non-string value. -/
def storeStringMap (s : Store) (key : String) : List (String × String) :=
  if (s.find? fun kv => kv.1 == key).isSome then []
  else
    let children := s.filter fun kv => strIsPre (key ++ ".") kv.1
    if children.all fun kv =>
        kv.2.isStr && !(strHasDot (strDrop kv.1 (strLen key + 1))) then
      children.filterMap fun kv =>
        match kv.2 with
        | .str v => some (strDrop kv.1 (strLen key + 1), v)
        | .strs _ => none
    else []

/-- Point delete `k.Delete(path)`: remove the entry at the path and every
entry under it. -/
def storeDelete (s : Store) (key : String) : Store :=
  s.filter fun kv => !(kv.1 == key || strIsPre (key ++ ".") kv.1)

/-! ## Binding table assembly (Load steps 2.5 and 3) -/

/-- Binding table: association list from environment-variable name to
configuration path, modelling the Go map `envBindings`. -/
abbrev Bindings := List (String × String)

/-- Go map assignment `m[k] = v` on the association-list model: replace
the value when the key is present, otherwise append the pair. -/
def bmInsert (bs : Bindings) (k v : String) : Bindings :=
  if bs.any fun kv => kv.1 == k then
    bs.map fun kv => if kv.1 == k then (k, v) else kv
  else bs ++ [(k, v)]

/-- Target configuration paths of a binding table (the Go sets
`boundPaths` are built from these). -/
def bindingTargets (bs : Bindings) : List String := bs.map Prod.snd

/-- Binding merge loop of Load (used in steps 2.5 and 3): walk the
lower-priority entries in order; skip an entry whose target configuration
path is already claimed, otherwise insert it keyed by environment-variable
name and claim its target path. -/
def mergeBindings (tbl : Bindings) (claimed : List String) : Bindings → Bindings
  | [] => tbl
  | (k, p) :: rest =>
    if claimed.contains p then mergeBindings tbl claimed rest
    else mergeBindings (bmInsert tbl k p) (p :: claimed) rest

/-- Character map of the replacer inside `generateEnvBindings` on Lean
strings: dot and hyphen become underscore. -/
def mangleDotDashChar (c : Char) : Char :=
  if c = '.' ∨ c = '-' then '_' else c

/-- String-level name mangling of `generateEnvBindings` (the rune-level
twin is `pathToEnvName`): replace dot and hyphen by underscore, uppercase
(`Char.toUpper` agrees with the ASCII plane of Go `strings.ToUpper`), and
prepend the prefix verbatim. -/
def pathToEnvNameS (pre key : String) : String :=
  pre ++ ⟨(key.data.map mangleDotDashChar).map Char.toUpper⟩

/-- Embedding of `generateEnvBindings(prefix, koanfKeys)`: one binding per
koanf key, named by the mangled key under the prefix (a Go map build, so a
later key overwrites an earlier one mangling to the same name). -/
def generateEnvBindings (pre : String) (koanfKeys : List String) : Bindings :=
  koanfKeys.foldl (fun acc key => bmInsert acc (pathToEnvNameS pre key) key) []

/-- Step 2.5 of Load: when a binding-declaration key is configured, read
the string map at that key; when it is non-empty, merge the declared
bindings below the explicit ones (skip rule on target paths) and delete
the declaration section from the store. The merge and the delete happen
only in the non-empty case. -/
def envBindStep (envBindKey : String) (bs : Bindings) (s : Store) :
    Bindings × Store :=
  if envBindKey ≠ "" then
    let fileB := storeStringMap s envBindKey
    if fileB ≠ [] then
      (mergeBindings bs (bindingTargets bs) fileB, storeDelete s envBindKey)
    else (bs, s)
  else (bs, s)

/-- Assembly of the final binding table (Load steps 2.5 and 3, binding
part only): explicit code bindings, then file-declared bindings, then
auto-derived bindings, each lower-priority list merged with the
path-claim skip rule against the table built so far. -/
def buildBindings (explicitB fileB autoB : Bindings) : Bindings :=
  let t1 := mergeBindings explicitB (bindingTargets explicitB) fileB
  mergeBindings t1 (bindingTargets t1) autoB

/-- Step 4 of Load: for every binding in table order, write the value of
the named environment variable to the bound path when that value is
non-empty (`os.Getenv` view of the environment: unset reads as empty). -/
def applyEnvBindings (env : String → String) (bs : Bindings) (s : Store) :
    Store :=
  bs.foldl
    (fun st kv =>
      if env kv.1 ≠ "" then storeSet st kv.2 (.str (env kv.1)) else st) s

/-! ## CLI flag application (Load step 5) -/

/-- Kebab form of a koanf key: `strings.ReplaceAll(koanfKey, ".", "-")`. -/
def kebabOf (key : String) : String :=
  ⟨key.data.map fun c => if c = '.' then '-' else c⟩

/-- Embedding of `detectCLIFlag`: prefer the kebab form when the user set
it, then the dot form; `none` when neither was set. -/
def detectCLIFlag (isSet : String → Bool) (key : String) : Option String :=
  if isSet (kebabOf key) then some (kebabOf key)
  else if isSet key then some key
  else none

/-- Embedding of `applyCLIFlagsRecursive` flattened over the leaf koanf
keys of the structure (the same traversal that `collectKoanfKeys` yields):
for every key whose flag the user explicitly set, write the typed flag
value at that key. -/
def applyCLIFlags (isSet : String → Bool) (fval : String → KVal)
    (keys : List String) (s : Store) : Store :=
  keys.foldl
    (fun st key =>
      match detectCLIFlag isSet key with
      | some flag => storeSet st key (fval flag)
      | none => st) s

/-! ## The Load pipeline -/

/-- Inputs of one `Load` call as seen by the store pipeline. The parsed
views delivered by the external collaborators (struct walk of the
defaults, file search and parse, process environment, CLI command) enter
as data: `defaults` is what the structs provider loads, `filePairs` the
parsed content of the first found configuration file (`none` when no file
was found), `env` the `os.Getenv` view, and `flagIsSet` / `flagVal` the
CLI command handle. -/
structure LoadIn where
  defaults : List (String × KVal)
  filePairs : Option (List (String × KVal))
  envBindKey : String
  envBindings : Bindings
  envPre : String
  koanfKeys : List String
  env : String → String
  cmdPresent : Bool
  flagIsSet : String → Bool
  flagVal : String → KVal

/-- Store pipeline of `Load` (source steps 1 to 5): load defaults, load
the configuration file over them, read file-declared bindings and delete
their section (step 2.5), merge auto-derived prefix bindings below all
existing bindings (step 3), apply every binding whose variable is set
non-empty (step 4), then apply explicitly set CLI flags (step 5). The
final unmarshal into the typed structure reads this store. -/
def loadStore (i : LoadIn) : Store :=
  let s0 := mergeInto [] i.defaults
  let s1 :=
    match i.filePairs with
    | some ps => mergeInto s0 ps
    | none => s0
  let bs := envBindStep i.envBindKey i.envBindings s1
  let b2 :=
    if i.envPre ≠ "" then
      mergeBindings bs.1 (bindingTargets bs.1)
        (generateEnvBindings i.envPre i.koanfKeys)
    else bs.1
  let s3 := applyEnvBindings i.env b2 bs.2
  if i.cmdPresent then applyCLIFlags i.flagIsSet i.flagVal i.koanfKeys s3
  else s3

/-- Scenario of claim C1: the single path `p` is bound by a default value
`dv`, a configuration file value `fv`, the auto-derived prefix binding
`X_P` (variable value `pv`), the explicit binding `E` (variable value
`ev`), and the CLI flag `p` (value `cv`, user-set exactly when `userSet`
holds). -/
def c1Scenario (dv fv ev pv cv : String) (userSet : Bool) : LoadIn where
  defaults := [("p", .str dv)]
  filePairs := some [("p", .str fv)]
  envBindKey := ""
  envBindings := [("E", "p")]
  envPre := "X_"
  koanfKeys := ["p"]
  env := fun k => if k = "E" then ev else if k = "X_P" then pv else ""
  cmdPresent := true
  flagIsSet := fun k => k = "p" && userSet
  flagVal := fun _ => .str cv

/-- Concrete instance of the C1 scenario: CLI flag not set, explicit
binding variable `E` unset, prefix binding variable `X_P` set to `pv`. -/
def c1ex : LoadIn := c1Scenario "dv" "fv" "" "pv" "cv" false

/-- Concrete instance for claim C6: the configuration file declares the
binding section `eb` as a list, not a string-to-string mapping. -/
def c6ex : LoadIn where
  defaults := []
  filePairs := some [("eb", .strs ["x"])]
  envBindKey := "eb"
  envBindings := []
  envPre := ""
  koanfKeys := []
  env := fun _ => ""
  cmdPresent := false
  flagIsSet := fun _ => false
  flagVal := fun _ => .str ""

/-! ## Configuration-file search (modelled from the spec)

The config.go of package config, which wires template expansion and
format-by-extension parsing into the file search of `Load`, is not part of
the source tree; only its tests and documentation are. The two
definitions below are therefore modelled from the spec (sections 4.4 step
2 and 7): candidates are tried in order, a missing file advances the
search, and the first existing file is expanded (unless expansion is
disabled) and parsed, any failure aborting the whole load. -/

/-- Modelled from the spec: processing of one existing candidate file.
When template expansion is enabled (the default), the raw text is first
expanded, and an expansion failure aborts with an error wrapped as a
template-expansion error; the resulting text (the raw text itself when
expansion is disabled) is then structurally parsed. -/
def parseCandidate (expansionDisabled : Bool)
    (expand : String → Except String String)
    (parse : String → Except String (List (String × KVal)))
    (raw : String) : Except String (List (String × KVal)) :=
  match (if expansionDisabled then Except.ok raw else expand raw) with
  | .error e => .error ("expand template: " ++ e)
  | .ok txt => parse txt

/-- Modelled from the spec: the configuration-file search loop of `Load`.
`content p` is `some raw` when a file exists at candidate path `p` with
raw text `raw`, and `none` when the file is missing. Missing candidates
advance the search; the first existing candidate is processed by
`parseCandidate` and any failure aborts; exhausting the list without
finding a file yields no file, which is not an error. -/
def loadFirstConfig (expansionDisabled : Bool)
    (expand : String → Except String String)
    (parse : String → Except String (List (String × KVal)))
    (content : String → Option String) :
    List String → Except String (Option (List (String × KVal)))
  | [] => .ok none
  | p :: ps =>
    match content p with
    | none => loadFirstConfig expansionDisabled expand parse content ps
    | some raw => (parseCandidate expansionDisabled expand parse raw).map some

/-! ## Reflective key collection (`collectKoanfKeys`) -/

mutual

/-- Go type as classified by `collectKoanfKeysRecursive`: a pointer, a
struct with its tagged fields, the special struct type `time.Time` (a
struct kind that carries no koanf-tagged fields and is never recursed
into as a field), or any non-struct kind (which includes
`time.Duration`, an integer kind). -/
inductive GoType where
  | ptr : GoType → GoType
  | structT : GoFields → GoType
  | timeT : GoType
  | scalarT : GoType

/-- Field list of a struct type: each field carries its koanf tag (the
empty string models a missing tag) and its type. -/
inductive GoFields where
  | nil : GoFields
  | cons : String → GoType → GoFields → GoFields

end

/-- Full pointer dereference, used to state which types count as structs
after dereferencing. -/
def derefAll : GoType → GoType
  | .ptr t => derefAll t
  | t => t

/-- Struct kind test of `reflect`: struct types and `time.Time` have kind
struct, everything else does not. -/
def isStructKind : GoType → Bool
  | .structT _ => true
  | .timeT => true
  | .ptr _ => false
  | .scalarT => false

mutual

/-- Embedding of `collectKoanfKeysRecursive`: dereference a top-level
pointer once, return no keys when the resulting kind is not struct, and
walk the fields otherwise. A top-level `time.Time` has struct kind but no
koanf-tagged fields, so walking it yields no keys. -/
def collectTop : GoType → String → List String
  | .ptr (.structT fs), pre => collectFields fs pre
  | .structT fs, pre => collectFields fs pre
  | _, _ => []

/-- Field walk of `collectKoanfKeysRecursive`: skip untagged fields
(suppressing recursion into their descendants); for a struct-typed field
other than `time.Duration` and `time.Time`, recurse under the extended
key; otherwise record the extended key as a leaf. -/
def collectFields : GoFields → String → List String
  | .nil, _ => []
  | .cons tag ft rest, pre =>
    if tag = "" then collectFields rest pre
    else
      let fullKey := if pre = "" then tag else pre ++ "." ++ tag
      (match ft with
       | .structT fs => collectFields fs fullKey
       | _ => [fullKey]) ++ collectFields rest pre

end

/-- Embedding of `collectKoanfKeys`: run the recursive collection from
the root type with the empty prefix. -/
def collectKoanfKeys (t : GoType) : List String := collectTop t ""

/-! ## Theorems about the name mangler (claim C5) -/

theorem isPrefixOf_append_self (pre m : List Nat) : pre.isPrefixOf (pre ++ m) = true := by
  induction pre with
  | nil => simp [List.isPrefixOf]
  | cons a t ih => simp [List.isPrefixOf, ih]

theorem trimPre_append (pre m : List Nat) : trimPre pre (pre ++ m) = m := by
  unfold trimPre
  rw [isPrefixOf_append_self]
  simp [List.drop_left]

theorem roundtrip_rune (r : Nat) :
    runeUnderscoreToDot (runeToLower (runeToUpper (runeDotDashToUnderscore r))) =
      if r = 45 ∨ r = 46 ∨ r = 95 then 46 else runeToLower r := by
  unfold runeUnderscoreToDot runeToLower runeToUpper runeDotDashToUnderscore
  split_ifs <;> omega

/-- Claim C5, counterexample: for the path `a_b` (runes 97, 95, 98) and the
prefix `X_` (runes 88, 95), decoding the mangled environment name yields
`a.b`, while the spec formula `lower(replace(p, "-", "."))` yields `a_b`:
the round trip also collapses underscores into dots, which the claimed
equation does not account for. -/
theorem c5_counterexample :
    envKeyDecoder [88, 95] (pathToEnvName [88, 95] [97, 95, 98]) ≠
      specRoundTrip [97, 95, 98] := by
  decide

/-- Claim C5, amended: for every path `p` and prefix `x`,
`envNameToPath(x, pathToEnvName(x, p))` equals lowercase `p` with every
hyphen, every dot and every underscore replaced by a dot; this agrees with
the claimed formula `lower(replace(p, "-", "."))` exactly when `p` contains
no underscore. -/
theorem c5_amended_roundtrip (pre p : List Nat) :
    envKeyDecoder pre (pathToEnvName pre p) =
      p.map (fun r => if r = 45 ∨ r = 46 ∨ r = 95 then 46 else runeToLower r) := by
  unfold envKeyDecoder pathToEnvName
  rw [trimPre_append]
  simp only [List.map_map]
  exact List.map_congr_left fun r _ => roundtrip_rune r

/-! ## Theorems about the template helpers (claims C7 and C8) -/

/-- Claim C7: `coalesceFunc` returns the first argument, scanning left to
right, that is neither the empty string nor nil; when every argument is
empty or nil it returns the nil sentinel (rendered by the template engine
as the no-value placeholder) and never an error; in particular coalescing
three empty strings yields the sentinel, which differs from the empty
string. -/
theorem c7_coalesce_first_nonempty :
    (∀ vs : List TVal, coalesceFunc vs = ((vs.find? fun v => ! v.isEmptyVal).getD .nil)) ∧
    coalesceFunc [.str "", .str "", .str ""] = .nil ∧ TVal.nil ≠ .str "" := by
  refine ⟨?_, by decide, by decide⟩
  intro vs
  induction vs with
  | nil => rfl
  | cons v vs ih =>
    by_cases h : v.isEmptyVal
    · simp [coalesceFunc, h, ih]
    · simp [coalesceFunc, h]

/-- Claim C8, counterexample: the variable `V` is set (to the empty
string), yet the two-argument form returns the fallback instead of the
value of the variable; `envFunc` cannot distinguish a variable set to the
empty string from an unset one. -/
theorem c8_counterexample :
    envSetEmpty "V" = some "" ∧
    envFunc envSetEmpty "V" ["fb"] = "fb" ∧ ("fb" : String) ≠ "" := by
  refine ⟨rfl, by decide, by decide⟩

/-- Claim C8, amended: `envFunc` returns the value of the variable when it
is set to a non-empty string (both arities); when the variable is unset or
set to the empty string, the one-argument form returns the empty string and
the two-argument form returns the fallback. -/
theorem c8_amended_envFunc (e : GoEnv) (key fb v : String) :
    (e key = some v → v ≠ "" → envFunc e key [] = v ∧ envFunc e key [fb] = v) ∧
    ((e key = none ∨ e key = some "") →
      envFunc e key [] = "" ∧ envFunc e key [fb] = fb) := by
  constructor
  · intro hset hne
    unfold envFunc getenv
    rw [hset]
    simp [hne]
  · intro h
    unfold envFunc getenv
    rcases h with h | h <;> rw [h] <;> simp

/-- Witness for the amended claim C8 at a concrete environment. -/
theorem c8_amended_envFunc_witness :
    envFunc envSetW "W" [] = "val" ∧ envFunc envSetW "W" ["fb"] = "val" :=
  (c8_amended_envFunc envSetW "W" "fb" "val").1 (by decide) (by decide)

/-! ## Theorems about the file search (claims C2 and C3) -/

/-- Claim C2: in the configuration-file search, an existing candidate
whose processing fails (template expansion or structural parse) makes the
whole load return that error, whatever candidates follow; only a missing
candidate advances the search to the next one. -/
theorem c2_parse_error_aborts (expansionDisabled : Bool)
    (expand : String → Except String String)
    (parse : String → Except String (List (String × KVal)))
    (content : String → Option String)
    (p : String) (ps : List String) (raw e : String) :
    (content p = some raw →
      parseCandidate expansionDisabled expand parse raw = .error e →
      loadFirstConfig expansionDisabled expand parse content (p :: ps) = .error e) ∧
    (content p = none →
      loadFirstConfig expansionDisabled expand parse content (p :: ps) =
        loadFirstConfig expansionDisabled expand parse content ps) := by
  constructor
  · intro h hf
    simp [loadFirstConfig, h, hf, Except.map]
  · intro h
    simp [loadFirstConfig, h]

/-- Witness for claim C2: a file exists at the first candidate, its
content fails to parse, and the load aborts with that error instead of
trying the second candidate. -/
theorem c2_parse_error_aborts_witness :
    loadFirstConfig false Except.ok (fun _ => Except.error "bad")
      (fun p => if p = "a" then some "raw" else none) ["a", "b"] =
      Except.error "bad" :=
  (c2_parse_error_aborts false Except.ok (fun _ => Except.error "bad")
      (fun p => if p = "a" then some "raw" else none) "a" ["b"] "raw" "bad").1
    (by decide) rfl

/-- Claim C3: when template expansion is not disabled (the default), the
text handed to the structural parser is the template-expanded form of the
raw file text; when expansion is disabled, the literal raw text is parsed
unchanged. -/
theorem c3_template_expansion_toggle
    (expand : String → Except String String)
    (parse : String → Except String (List (String × KVal)))
    (raw txt : String) :
    (expand raw = .ok txt →
      parseCandidate false expand parse raw = parse txt) ∧
    parseCandidate true expand parse raw = parse raw := by
  constructor
  · intro h
    simp [parseCandidate, h]
  · rfl

/-- Witness for claim C3: with a concrete expander that rewrites the raw
text, the parser receives the expanded text, not the raw text. -/
theorem c3_template_expansion_toggle_witness :
    parseCandidate false (fun _ => Except.ok "out")
      (fun t => Except.ok [("k", KVal.str t)]) "in" =
      Except.ok [("k", KVal.str "out")] :=
  (c3_template_expansion_toggle (fun _ => Except.ok "out")
      (fun t => Except.ok [("k", KVal.str t)]) "in" "out").1 rfl

/-! ## Theorem about the key collector (claim C10) -/

/-- Claim C10: `collectKoanfKeys` is total over all types. Its embedding
is a total function (the formal counterpart of never panicking), and for
every type that is not a struct after dereferencing pointers it returns
the empty key list: non-struct kinds are rejected by the explicit guard
before field enumeration. -/
theorem c10_collect_total (t : GoType) :
    (isStructKind (derefAll t) = false → collectKoanfKeys t = []) ∧
    (∀ fs : GoFields, ∃ keys, collectKoanfKeys (.structT fs) = keys) := by
  constructor
  · intro h
    cases t with
    | ptr t2 =>
      cases t2 with
      | ptr t3 => rfl
      | structT fs =>
        simp [derefAll, isStructKind] at h
      | timeT => rfl
      | scalarT => rfl
    | structT fs =>
      simp [derefAll, isStructKind] at h
    | timeT =>
      simp [derefAll, isStructKind] at h
    | scalarT => rfl
  · intro fs
    exact ⟨_, rfl⟩

/-- Witness for claim C10 at a pointer-to-scalar type. -/
theorem c10_collect_total_witness :
    collectKoanfKeys (.ptr .scalarT) = [] :=
  (c10_collect_total (.ptr .scalarT)).1 (by decide)

/-! ## Theorems about the binding table (claim C4) -/

theorem bmInsert_of_not_mem (bs : Bindings) (k v : String)
    (h : k ∉ bs.map Prod.fst) : bmInsert bs k v = bs ++ [(k, v)] := by
  unfold bmInsert
  rw [if_neg]
  intro hc
  rw [List.any_eq_true] at hc
  obtain ⟨kv, hm, he⟩ := hc
  exact h (List.mem_map.2 ⟨kv, hm, beq_iff_eq.1 he⟩)

theorem mergeBindings_cons_skip (tbl : Bindings) (claimed : List String)
    (k p : String) (rest : Bindings) (h : claimed.contains p = true) :
    mergeBindings tbl claimed ((k, p) :: rest) = mergeBindings tbl claimed rest := by
  show (if claimed.contains p then mergeBindings tbl claimed rest
        else mergeBindings (bmInsert tbl k p) (p :: claimed) rest) =
      mergeBindings tbl claimed rest
  rw [if_pos h]

theorem mergeBindings_cons_keep (tbl : Bindings) (claimed : List String)
    (k p : String) (rest : Bindings) (h : claimed.contains p = false) :
    mergeBindings tbl claimed ((k, p) :: rest) =
      mergeBindings (bmInsert tbl k p) (p :: claimed) rest := by
  show (if claimed.contains p then mergeBindings tbl claimed rest
        else mergeBindings (bmInsert tbl k p) (p :: claimed) rest) =
      mergeBindings (bmInsert tbl k p) (p :: claimed) rest
  rw [if_neg]
  simpa using h

theorem mergeBindings_eq_append (newB : Bindings) :
    ∀ (tbl : Bindings) (claimed : List String),
      (∀ kv ∈ newB, kv.1 ∉ tbl.map Prod.fst) →
      (newB.map Prod.fst).Nodup →
      (newB.map Prod.snd).Nodup →
      mergeBindings tbl claimed newB =
        tbl ++ newB.filter fun kv => ! claimed.contains kv.2 := by
  induction newB with
  | nil =>
    intro tbl claimed _ _ _
    simp [mergeBindings]
  | cons kv rest ih =>
    intro tbl claimed hnames hkn hpn
    obtain ⟨k, p⟩ := kv
    simp only [List.map_cons, List.nodup_cons] at hkn hpn
    cases hcb : claimed.contains p with
    | true =>
      have hm : p ∈ claimed := by simpa using hcb
      rw [mergeBindings_cons_skip tbl claimed k p rest hcb]
      rw [ih tbl claimed (fun kv h => hnames kv (List.mem_cons_of_mem _ h)) hkn.2 hpn.2]
      simp [List.filter_cons, hm]
    | false =>
      have hm : p ∉ claimed := by simpa using hcb
      rw [mergeBindings_cons_keep tbl claimed k p rest hcb]
      rw [bmInsert_of_not_mem tbl k p (hnames (k, p) (List.mem_cons_self _ _))]
      rw [ih (tbl ++ [(k, p)]) (p :: claimed) ?hnames2 hkn.2 hpn.2]
      case hnames2 =>
        intro kv h
        simp only [List.map_append, List.mem_append, List.map_cons, List.map_nil]
        rintro (hm2 | hm2)
        · exact hnames kv (List.mem_cons_of_mem _ h) hm2
        · simp only [List.mem_singleton] at hm2
          exact hkn.1 (hm2 ▸ List.mem_map_of_mem Prod.fst h)
      have hfilter : (rest.filter fun kv => ! (p :: claimed).contains kv.2) =
          rest.filter fun kv => ! claimed.contains kv.2 := by
        apply List.filter_congr
        intro x hx
        have hxp : ¬ x.2 = p := by
          intro hEq
          exact hpn.1 (hEq ▸ List.mem_map_of_mem Prod.snd hx)
        simp [List.mem_cons, hxp]
      rw [hfilter]
      simp [List.filter_cons, hm, List.append_assoc]

/-- Claim C4, counterexample: with no explicit and no auto-derived
bindings, the file-declared source contains the two entries A and B, both
targeting the path p; entry B is dropped even though no higher-priority
source claims p, because the claim set also grows with earlier entries of
the same source. -/
theorem c4_counterexample :
    buildBindings [] [("A", "p"), ("B", "p")] [] = [("A", "p")] ∧
    "p" ∉ bindingTargets ([] : Bindings) := by
  decide

/-- Claim C4, amended: when the environment-variable names of the three
sources are pairwise distinct (the table is keyed by name, so a reused
name would overwrite across sources) and each source binds each target
path at most once (a same-source duplicate target is also skipped, as the
counterexample shows), the final table is the explicit bindings, followed
by the file-declared bindings whose target path no explicit binding
claims, followed by the auto-derived bindings whose target path no
explicit or surviving file-declared binding claims. -/
theorem c4_amended_binding_table (explicitB fileB autoB : Bindings)
    (hnames : (((explicitB ++ fileB) ++ autoB).map Prod.fst).Nodup)
    (hft : (fileB.map Prod.snd).Nodup)
    (hat : (autoB.map Prod.snd).Nodup) :
    buildBindings explicitB fileB autoB =
      (explicitB ++ fileB.filter fun kv =>
          ! (bindingTargets explicitB).contains kv.2)
        ++ autoB.filter fun kv =>
          ! (bindingTargets (explicitB ++ fileB.filter fun kv2 =>
              ! (bindingTargets explicitB).contains kv2.2)).contains kv.2 := by
  simp only [List.map_append, List.nodup_append] at hnames
  obtain ⟨⟨hen, hfn, hef⟩, han, hefa⟩ := hnames
  unfold buildBindings
  have h1 : mergeBindings explicitB (bindingTargets explicitB) fileB =
      explicitB ++ fileB.filter fun kv =>
        ! (bindingTargets explicitB).contains kv.2 := by
    apply mergeBindings_eq_append fileB explicitB (bindingTargets explicitB)
      ?_ hfn hft
    intro kv h hmem
    exact hef hmem (List.mem_map_of_mem Prod.fst h)
  rw [h1]
  apply mergeBindings_eq_append autoB _ _ ?_ han hat
  intro kv h hmem
  refine hefa ?_ (List.mem_map_of_mem Prod.fst h)
  simp only [List.map_append, List.mem_append] at hmem
  simp only [List.mem_append]
  rcases hmem with hm | hm
  · exact Or.inl hm
  · refine Or.inr ?_
    obtain ⟨kv2, hkv2, hfst⟩ := List.mem_map.1 hm
    exact List.mem_map.2 ⟨kv2, List.mem_of_mem_filter hkv2, hfst⟩

/-- Witness for the amended claim C4 at a concrete instance of all three
sources. -/
theorem c4_amended_binding_table_witness :
    buildBindings [("E", "a")] [("F", "a"), ("G", "b")] [("H", "b"), ("I", "c")] =
      [("E", "a"), ("G", "b"), ("I", "c")] :=
  (c4_amended_binding_table [("E", "a")] [("F", "a"), ("G", "b")]
      [("H", "b"), ("I", "c")] (by decide) (by decide) (by decide)).trans
    (by decide)

/-! ## Theorems about the binding-declaration section (claim C6) -/

theorem storeGet_storeDelete (s : Store) (key k2 : String)
    (hk : k2 = key ∨ strIsPre (key ++ ".") k2 = true) :
    storeGet (storeDelete s key) k2 = none := by
  unfold storeGet storeDelete
  rw [Option.map_eq_none', List.find?_eq_none]
  intro x hx
  rw [List.mem_filter] at hx
  obtain ⟨hxs, hq⟩ := hx
  simp only [Bool.not_eq_eq_eq_not, Bool.not_true, Bool.or_eq_false_iff,
    beq_eq_false_iff_ne] at hq
  intro hbeq
  have hx2 : x.1 = k2 := beq_iff_eq.1 hbeq
  rcases hk with hk | hk
  · exact hq.1 (hx2.trans hk)
  · rw [hx2] at hq
    rw [hq.2] at hk
    exact Bool.false_ne_true hk

/-- Claim C6, counterexample: the binding-declaration key is set to `eb`
and the configuration file declares `eb` as a list, not a
string-to-string mapping; after the whole Load pipeline the store still
holds that entry at the declaration key, because the section is deleted
only when it reads back as a non-empty string map. -/
theorem c6_counterexample :
    c6ex.envBindKey = "eb" ∧
    storeGet (loadStore c6ex) "eb" = some (KVal.strs ["x"]) :=
  ⟨rfl, by decide⟩

/-- Claim C6, amended: when the declaration section reads back as a
non-empty string-to-string mapping, the binding step deletes it, and the
store afterwards holds no entry at the declaration key nor at any path
under it; when the section is absent, empty, or not a string-to-string
mapping, it is left in the store untouched (see the counterexample). -/
theorem c6_amended_bindkey_delete (bs : Bindings) (s : Store) (key k2 : String)
    (hkey : key ≠ "") (hb : storeStringMap s key ≠ [])
    (hk : k2 = key ∨ strIsPre (key ++ ".") k2 = true) :
    storeGet (envBindStep key bs s).2 k2 = none := by
  unfold envBindStep
  simp only [if_pos hkey, if_pos hb]
  exact storeGet_storeDelete s key k2 hk

/-- Witness for the amended claim C6: a store holding one string entry
under the declaration key `eb` has nothing left under `eb` after the
binding step. -/
theorem c6_amended_bindkey_delete_witness :
    storeGet (envBindStep "eb" [] [("eb.A", KVal.str "p")]).2 "eb.A" = none :=
  c6_amended_bindkey_delete [] [("eb.A", KVal.str "p")] "eb" "eb.A"
    (by decide) (by decide) (Or.inr (by decide))

/-! ## Theorems about the merge priority (claim C1) -/

/-- Claim C1, counterexample: in the five-source scenario the CLI flag is
not user-set, the explicit binding variable `E` is unset, and the
auto-derived prefix binding variable (whose name mangles to `X_P`) is set
to `pv`; the claim predicts the value `pv`, but Load yields the file
value `fv`, because the auto-derived binding for the path was skipped
when the table was assembled (its target path is claimed by the explicit
binding) and is never consulted. -/
theorem c1_counterexample :
    c1ex.env (pathToEnvNameS c1ex.envPre "p") = "pv" ∧
    c1ex.env "E" = "" ∧
    storeGet (loadStore c1ex) "p" = some (KVal.str "fv") :=
  ⟨by decide, by decide, by decide⟩

/-- Claim C1, amended: in the five-source scenario the resulting value at
the path is the CLI flag value when the user set the flag, else the value
of the explicit binding variable when that variable is set non-empty,
else the file value. The variable of the auto-derived prefix binding
(value `pv`) is never consulted, because the auto-derived binding is
dropped at table-assembly time in favour of the explicit binding for the
same target path: the result does not depend on `pv`. -/
theorem c1_amended_priority (dv fv ev pv cv : String) (userSet : Bool) :
    storeGet (loadStore (c1Scenario dv fv ev pv cv userSet)) "p" =
      some (.str (if userSet then cv else if ev = "" then fv else ev)) := by
  cases userSet with
  | true =>
    by_cases he : ev = "" <;>
      simp [c1Scenario, loadStore, mergeInto, storeSet, storeGet, envBindStep,
        generateEnvBindings, bmInsert, mergeBindings, bindingTargets,
        applyEnvBindings, applyCLIFlags, detectCLIFlag, kebabOf, he]
  | false =>
    by_cases he : ev = "" <;>
      simp [c1Scenario, loadStore, mergeInto, storeSet, storeGet, envBindStep,
        generateEnvBindings, bmInsert, mergeBindings, bindingTargets,
        applyEnvBindings, applyCLIFlags, detectCLIFlag, kebabOf, he]

end Mcfg
